import Mathlib

/-!
Shallow embedding of the metric-translation and scrape engine of the
ldap_exporter repository (package main: the metric attribute types, the
template translator, the metrics source and the scrape orchestrator, plus
the configuration post-processing relevant to load determinism).

Modelling conventions:
* Go `float64` values are embedded as `ℚ`; the concrete decimal literals in
  the specification (`3.5`, `7`, `2`, `5`) are exactly representable, so no
  rounding is modelled.  `strconv.ParseFloat` is modelled on its finite
  decimal subset (optional sign, decimal digits with an optional fraction
  and exponent); `Inf`/`NaN`/hex-float spellings are outside the model.
* Go maps are embedded as association lists; where the code iterates over a
  map, the association-list order stands for the (runtime chosen) iteration
  order.
* A Go panic is modelled by `Option.none` wrapped around a function's
  result; `Except.error` models an error return value.
* The prometheus channel of emitted metrics is modelled as the list of
  metrics sent before the function returned (or errored).
-/

namespace LdapExporter

/-- Go `unicode.IsSpace` on the Latin-1 range, as used by
`strings.TrimSpace` in the configuration validators.  (Higher-plane Unicode
space characters are outside the model; the repository's inputs are ASCII.) -/
def isGoSpace (c : Char) : Bool :=
  c = ' ' || c = '\t' || c = '\n' || c = '\x0b' || c = '\x0c' || c = '\r' ||
    c.toNat = 0x85 || c.toNat = 0xA0

/-- Go `strings.TrimSpace`: drop leading and trailing space characters. -/
def trimSpace (s : String) : String :=
  String.mk (((s.toList.dropWhile isGoSpace).reverse.dropWhile isGoSpace).reverse)

/-- Value of a list of decimal digit characters. -/
def digitsToNat (cs : List Char) : Nat :=
  cs.foldl (fun a c => a * 10 + (c.toNat - 48)) 0

/-- Go `strconv.ParseUint(s, 10, 64)`: a non-empty all-digit string whose
value fits in 64 bits; anything else is an error (`none`). -/
def parseUint10_64 (s : String) : Option Nat :=
  let cs := s.toList
  if !cs.isEmpty && cs.all Char.isDigit then
    let n := digitsToNat cs
    if n < 2 ^ 64 then some n else none
  else none

/-- Mantissa part of `strconv.ParseFloat`: decimal digits with at most one
dot, at least one digit overall. -/
def parseMantissa (cs : List Char) : Option ℚ :=
  let ip := cs.takeWhile (fun c => c ≠ '.')
  match cs.drop ip.length with
  | [] =>
    if !ip.isEmpty && ip.all Char.isDigit then some ((digitsToNat ip : ℚ)) else none
  | '.' :: frac =>
    if frac.all (fun c => c ≠ '.') &&
        ip.all Char.isDigit && frac.all Char.isDigit &&
        (!ip.isEmpty || !frac.isEmpty) then
      some ((digitsToNat ip : ℚ) + (digitsToNat frac : ℚ) / (10 ^ frac.length : ℚ))
    else none
  | _ => none

/-- Exponent part of `strconv.ParseFloat`: empty, or `e`/`E` followed by an
optionally signed non-empty digit string. -/
def parseExponent : List Char → Option ℤ
  | [] => some 0
  | c :: rest =>
    if c = 'e' || c = 'E' then
      let signAndDigits : ℤ × List Char :=
        match rest with
        | '+' :: t => (1, t)
        | '-' :: t => (-1, t)
        | t => (1, t)
      let sgn := signAndDigits.1
      let ds := signAndDigits.2
      if !ds.isEmpty && ds.all Char.isDigit then some (sgn * (digitsToNat ds : ℤ))
      else none
    else none

/-- Go `strconv.ParseFloat(s, 64)` on its finite decimal subset, embedded
into `ℚ` (see the module comment). -/
def parseFloat64 (s : String) : Option ℚ :=
  let signAndRest : ℚ × List Char :=
    match s.toList with
    | '+' :: rest => (1, rest)
    | '-' :: rest => (-1, rest)
    | cs => (1, cs)
  let sgn := signAndRest.1
  let cs := signAndRest.2
  let mant := cs.takeWhile (fun c => c ≠ 'e' && c ≠ 'E')
  match parseMantissa mant, parseExponent (cs.drop mant.length) with
  | some m, some e => some (sgn * m * (10 : ℚ) ^ e)
  | _, _ => none

/-- A value bound in the input map of a Go `text/template` execution: the
translator is executed against `map[string]interface\x7b\x7d\x7b"values": values,
"value": values[0]\x7d`, so the bound values are strings or string lists. -/
inductive TmplValue where
  | str (s : String)
  | list (l : List String)
deriving DecidableEq, Repr

/-- How Go's `fmt` renders a template value into the output text. -/
def renderTmplValue : TmplValue → String
  | .str s => s
  | .list l => "[" ++ String.intercalate " " l ++ "]"

/-- One piece of a compiled `text/template`: literal text, or a reference
`\x7b\x7b .name \x7d\x7d` to a field of the input map.  The repository compiles
templates at configuration-load time; this model starts from the compiled
form. -/
inductive TmplPiece where
  | lit (s : String)
  | field (name : String)
deriving DecidableEq, Repr

/-- Execution of the compiled pieces with the `missingkey=error` option:
a reference to a field absent from the input map aborts with an error. -/
def executeTemplateAux : List TmplPiece → List (String × TmplValue) → String →
    Except String String
  | [], _, acc => .ok acc
  | .lit s :: rest, input, acc => executeTemplateAux rest input (acc ++ s)
  | .field n :: rest, input, acc =>
    match input.lookup n with
    | some v => executeTemplateAux rest input (acc ++ renderTmplValue v)
    | none => .error ("map has no entry for key " ++ n)

/-- Model of `Template.Option("missingkey=error").Execute(buffer, input)`. -/
def executeTemplate (t : List TmplPiece) (input : List (String × TmplValue)) :
    Except String String :=
  executeTemplateAux t input ""

/-- A YAML value in the flow-style subset the translator contract uses:
scalars, flow sequences `[...]` and flow mappings. -/
inductive YamlVal where
  | scalar (s : String)
  | seq (l : List YamlVal)
  | map (l : List (String × YamlVal))
deriving Repr

/-- Drop leading blanks. -/
def skipWs (cs : List Char) : List Char :=
  cs.dropWhile (fun c => c = ' ')

/-- Drop trailing blanks of a scalar token. -/
def rtrimChars (cs : List Char) : List Char :=
  (cs.reverse.dropWhile (fun c => c = ' ')).reverse

/-- Character ending a plain flow scalar. -/
def endsScalar (c : Char) : Bool :=
  c = ',' || c = ']' || c = '\x7d' || c = '\n'

mutual

/-- Parse one flow-style YAML value (fuel-indexed recursive descent,
modelling `gopkg.in/yaml.v2` on the flow subset the translator emits). -/
def parseYamlVal : Nat → List Char → Except String (YamlVal × List Char)
  | 0, _ => .error "yaml: out of fuel"
  | fuel + 1, cs =>
    match skipWs cs with
    | '[' :: rest => parseSeqItems fuel (skipWs rest) []
    | '\x7b' :: rest => parseMapItems fuel (skipWs rest) []
    | cs' =>
      let tok := cs'.takeWhile (fun c => !endsScalar c)
      .ok (.scalar (String.mk (rtrimChars tok)), cs'.drop tok.length)

/-- Parse the items of a flow sequence up to the closing bracket. -/
def parseSeqItems : Nat → List Char → List YamlVal →
    Except String (YamlVal × List Char)
  | 0, _, _ => .error "yaml: out of fuel"
  | fuel + 1, cs, acc =>
    match skipWs cs with
    | ']' :: rest => .ok (.seq acc.reverse, rest)
    | cs' =>
      match parseYamlVal fuel cs' with
      | .error e => .error e
      | .ok (v, rest) =>
        match skipWs rest with
        | ',' :: rest2 => parseSeqItems fuel rest2 (v :: acc)
        | ']' :: rest2 => .ok (.seq ((v :: acc)).reverse, rest2)
        | _ => .error "yaml: expected , or ] in flow sequence"

/-- Parse the entries of a flow mapping up to the closing brace. -/
def parseMapItems : Nat → List Char → List (String × YamlVal) →
    Except String (YamlVal × List Char)
  | 0, _, _ => .error "yaml: out of fuel"
  | fuel + 1, cs, acc =>
    match skipWs cs with
    | '\x7d' :: rest => .ok (.map acc.reverse, rest)
    | cs' =>
      let keyTok := cs'.takeWhile (fun c => c ≠ ':' && !endsScalar c)
      match cs'.drop keyTok.length with
      | ':' :: rest1 =>
        match parseYamlVal fuel rest1 with
        | .error e => .error e
        | .ok (v, rest2) =>
          let entry := (String.mk (rtrimChars keyTok), v)
          match skipWs rest2 with
          | ',' :: rest3 => parseMapItems fuel rest3 (entry :: acc)
          | '\x7d' :: rest3 => .ok (.map ((entry :: acc)).reverse, rest3)
          | _ => .error "yaml: expected , or closing brace in flow mapping"
      | _ => .error "yaml: expected : after mapping key"

end

/-- Parse a whole rendered document (flow subset).  An all-blank document is
the empty document, which `yaml.Unmarshal` leaves as a nil slice. -/
def parseYamlDoc (s : String) : Except String (Option YamlVal) :=
  let cs := s.toList
  if (cs.all (fun c => c = ' ' || c = '\n')) then .ok none
  else
    match parseYamlVal (2 * cs.length + 8) cs with
    | .error e => .error e
    | .ok (v, rest) =>
      if (rest.all (fun c => c = ' ' || c = '\n')) then .ok (some v)
      else .error "yaml: trailing content after document"

/-- Structure `translationResult`: the structured output of one translation row.
`Value` and `Labels` are the declared fields; `X` collects the unknown
fields (the `yaml:",inline"` overflow map). -/
structure translationResult where
  Value : ℚ
  Labels : List (String × String)
  X : List (String × YamlVal)

/-- Model of `checkOverflow`: any key collected in the inline overflow map is an
unknown-field error. -/
def checkOverflow (m : List (String × YamlVal)) (ctx : String) :
    Except String Unit :=
  if m.length > 0 then
    .error ("unknown fields in " ++ ctx ++ ": fields were: " ++
      String.intercalate ", " (m.map Prod.fst))
  else .ok ()

/-- Decoding the `labels` field: a mapping from strings to string scalars. -/
def decodeLabels : YamlVal → Except String (List (String × String))
  | .map pairs =>
    pairs.mapM (fun kv =>
      match kv.2 with
      | .scalar s => .ok (kv.1, s)
      | _ => .error "yaml: label value is not a string")
  | _ => .error "yaml: labels is not a mapping"

/-- Decoding the `value` field: the scalar must read as a number. -/
def decodeValue (v : YamlVal) : Except String ℚ :=
  match v with
  | .scalar s =>
    match parseFloat64 s with
    | some q => .ok q
    | none => .error "yaml: cannot unmarshal value into float64"
  | _ => .error "yaml: cannot unmarshal value into float64"

/-- Fold the entries of one rendered mapping into a `translationResult`:
`value` and `labels` fill the declared fields, every other key goes to the
inline overflow map `X` (the `yaml.v2` struct-decoding behaviour). -/
def decodeResultFields : List (String × YamlVal) → translationResult →
    Except String translationResult
  | [], r => .ok r
  | (k, v) :: rest, r =>
    if k = "value" then
      match decodeValue v with
      | .ok q => decodeResultFields rest { r with Value := q }
      | .error e => .error e
    else if k = "labels" then
      match decodeLabels v with
      | .ok ls => decodeResultFields rest { r with Labels := ls }
      | .error e => .error e
    else
      decodeResultFields rest { r with X := r.X ++ [(k, v)] }

/-- Decode one element of the rendered list into a `translationResult`. -/
def decodeTranslationResult : YamlVal → Except String translationResult
  | .map pairs => decodeResultFields pairs ⟨0, [], []⟩
  | _ => .error "yaml: cannot unmarshal into translationResult"

/-- Decode the whole rendered document into the `[](*translationResult)`
slice: the document must be a sequence of mappings (a missing document is
the nil slice). -/
def decodeTranslationResults : Option YamlVal →
    Except String (List translationResult)
  | none => .ok []
  | some (.seq items) => items.mapM decodeTranslationResult
  | some _ => .error "yaml: cannot unmarshal into a translationResult list"

/-- The per-result unknown-field scan of `do_the_translation_thing`
(`for idx, result := range results \x7b checkOverflow(result.X, ...) \x7d`). -/
def checkResultsOverflow : Nat → List translationResult → Except String Unit
  | _, [] => .ok ()
  | idx, r :: rest =>
    match checkOverflow r.X "interpretting ldap->yaml translation" with
    | .error e =>
      .error ("failed parsing value: had unknown field in position " ++
        toString idx ++ ": " ++ e)
    | .ok _ => checkResultsOverflow (idx + 1) rest

/-- Model of `do_the_translation_thing`: execute the translator template over
`\x7b"values": values, "value": values[0]\x7d` with `missingkey=error`, parse
the rendered text as a list of translation results, and reject unknown
fields.  Indexing `values[0]` on an empty slice is a Go panic, modelled as
`none`. -/
def do_the_translation_thing (t : List TmplPiece) (values : List String) :
    Option (Except String (List translationResult)) :=
  match values with
  | [] => none
  | v0 :: _ =>
    some (
      match executeTemplate t
          [("values", TmplValue.list values), ("value", TmplValue.str v0)] with
      | .error e => .error ("failed parsing for value: " ++ e)
      | .ok rendered =>
        match parseYamlDoc rendered with
        | .error e =>
          .error ("failed parsing value due to " ++ e ++
            "; intermediate yaml was:\n" ++ rendered)
        | .ok doc =>
          match decodeTranslationResults doc with
          | .error e =>
            .error ("failed parsing value due to " ++ e ++
              "; intermediate yaml was:\n" ++ rendered)
          | .ok results =>
            match checkResultsOverflow 0 results with
            | .error e => .error e
            | .ok _ => .ok results)

/-- Model of `prometheus.ValueType`: the two value kinds the repository constructs. -/
inductive ValueType where
  | counterValue
  | gaugeValue
deriving DecidableEq, Repr

/-- Model of `prometheus.Desc` as built by `prometheus.NewDesc(metric_name, help,
labels, constant_labels)`.  (Name/label character validation inside
`NewDesc` is outside the model; it does not change any claim here.) -/
structure Desc where
  fqName : String
  help : String
  variableLabels : List String
  constLabels : List (String × String)
deriving DecidableEq, Repr

/-- A concrete const metric sample. -/
structure Metric where
  desc : Desc
  valueType : ValueType
  value : ℚ
  labelValues : List String
deriving DecidableEq, Repr

/-- Model of `prometheus.NewConstMetric`: errors when the number of label values does
not match the descriptor's variable-label arity. -/
def NewConstMetric (desc : Desc) (vt : ValueType) (value : ℚ)
    (labelValues : List String) : Except String Metric :=
  if desc.variableLabels.length = labelValues.length then
    .ok ⟨desc, vt, value, labelValues⟩
  else .error "inconsistent label cardinality"

/-- Scan of the label sources in priority order, first hit wins
(the inner loop of `buildOrderedLabels`). -/
def lookupSources (name : String) : List (List (String × String)) → Option String
  | [] => none
  | src :: rest =>
    match src.lookup name with
    | some v => some v
    | none => lookupSources name rest

/-- Model of `buildOrderedLabels`: resolve each descriptor label name from the label
sources in priority order; a name found in no source is an error. -/
def buildOrderedLabels (desc_labels : List String)
    (label_sources : List (List (String × String))) : Except String (List String) :=
  match desc_labels with
  | [] => .ok []
  | name :: rest =>
    match lookupSources name label_sources with
    | some v =>
      match buildOrderedLabels rest label_sources with
      | .ok tl => .ok (v :: tl)
      | .error e => .error e
    | none => .error ("label " ++ name ++ " wasn't found in label sources")

/-- Model of `ldap.EntryAttribute`: a named, possibly multi-valued result field. -/
structure EntryAttribute where
  Name : String
  Values : List String
deriving DecidableEq, Repr

/-- Structure `CounterMetricAttribute`. -/
structure CounterMetricAttribute where
  Desc : Desc
  labels : List String
  translator : Option (List TmplPiece)
deriving DecidableEq, Repr

/-- Constructor `NewCounterMetricAttribute`. -/
def NewCounterMetricAttribute (metric_name : String) (labels : List String)
    (constant_labels : List (String × String)) (translator : Option (List TmplPiece))
    (help : String) : CounterMetricAttribute :=
  { translator := translator
    labels := labels
    Desc := ⟨metric_name, help, labels, constant_labels⟩ }

/-- Structure `GaugeMetricAttribute`. -/
structure GaugeMetricAttribute where
  Desc : Desc
  labels : List String
  translator : Option (List TmplPiece)
deriving DecidableEq, Repr

/-- Constructor `NewGaugeMetricAttribute`. -/
def NewGaugeMetricAttribute (metric_name : String) (labels : List String)
    (constant_labels : List (String × String)) (translator : Option (List TmplPiece))
    (help : String) : GaugeMetricAttribute :=
  { translator := translator
    labels := labels
    Desc := ⟨metric_name, help, labels, constant_labels⟩ }

/-- The translated-values loop shared textually by both `Parse` methods:
for each translation result, resolve the ordered labels (translation labels
first, then the caller-supplied labels) and build a const metric of the
given value type. -/
def buildTranslatedMetrics (desc : Desc) (vt : ValueType) (descLabels : List String)
    (extra_labels : List (String × String)) :
    List translationResult → Except String (List Metric)
  | [] => .ok []
  | r :: rest =>
    match buildOrderedLabels descLabels [r.Labels, extra_labels] with
    | .error e => .error e
    | .ok labels =>
      match NewConstMetric desc vt r.Value labels with
      | .error e => .error e
      | .ok metric =>
        match buildTranslatedMetrics desc vt descLabels extra_labels rest with
        | .error e => .error e
        | .ok tl => .ok (metric :: tl)

/-- Model of `CounterMetricAttribute.Parse`.  Here `none` models a panic (empty value list
on the translator path); `some (.error _)` an error return. -/
def CounterMetricAttribute.Parse (c : CounterMetricAttribute)
    (extra_labels : List (String × String)) (entry : EntryAttribute) :
    Option (Except String (List Metric)) :=
  match c.translator with
  | none =>
    some (
      match entry.Values with
      | [v] =>
        match parseUint10_64 v with
        | none => .error "strconv.ParseUint: parsing: invalid syntax"
        | some x =>
          match buildOrderedLabels c.labels [extra_labels] with
          | .error e => .error e
          | .ok labels =>
            match NewConstMetric c.Desc .counterValue (x : ℚ) labels with
            | .error e => .error e
            | .ok metric => .ok [metric]
      | _ =>
        .error ("Attribute " ++ entry.Name ++
          " resulted in a match count other than one, but no translator was defined"))
  | some t =>
    (do_the_translation_thing t entry.Values).map (fun res =>
      match res with
      | .error e => .error e
      | .ok values => buildTranslatedMetrics c.Desc .counterValue c.labels extra_labels values)

/-- Model of `GaugeMetricAttribute.Parse`.  Note: the non-translator branch of the
source passes `prometheus.CounterValue` to `NewConstMetric` even though the
attribute is a gauge; the translator branch passes `prometheus.GaugeValue`. -/
def GaugeMetricAttribute.Parse (g : GaugeMetricAttribute)
    (extra_labels : List (String × String)) (entry : EntryAttribute) :
    Option (Except String (List Metric)) :=
  match g.translator with
  | none =>
    some (
      match entry.Values with
      | [v] =>
        match parseFloat64 v with
        | none => .error "strconv.ParseFloat: parsing: invalid syntax"
        | some x =>
          match buildOrderedLabels g.labels [extra_labels] with
          | .error e => .error e
          | .ok labels =>
            match NewConstMetric g.Desc .counterValue x labels with
            | .error e => .error ("Failed creating metric: " ++ e)
            | .ok metric => .ok [metric]
      | _ =>
        .error ("Attribute " ++ entry.Name ++
          " resulted in a match count other than one, but no translator was defined"))
  | some t =>
    (do_the_translation_thing t entry.Values).map (fun res =>
      match res with
      | .error e => .error e
      | .ok values => buildTranslatedMetrics g.Desc .gaugeValue g.labels extra_labels values)

/-- The closed union behind the `MetricAttribute` interface. -/
inductive MetricAttr where
  | counter (c : CounterMetricAttribute)
  | gauge (g : GaugeMetricAttribute)
deriving DecidableEq, Repr

/-- Interface dispatch of `Parse`. -/
def MetricAttr.ParseDispatch : MetricAttr → List (String × String) →
    EntryAttribute → Option (Except String (List Metric))
  | .counter c, extra, entry => c.Parse extra entry
  | .gauge g, extra, entry => g.Parse extra entry

/-- Model of `ldap.Entry` (the attribute list of one search-result entry). -/
structure Entry where
  Attributes : List EntryAttribute
deriving DecidableEq, Repr

/-- Model of `ldap.SearchRequest` as built by `ldap.NewSearchRequest` (the size/time
limit and typesOnly arguments are constants in the repository and carry no
information). -/
structure SearchRequest where
  BaseDN : String
  Scope : Nat
  DerefAliases : Nat
  Filter : String
  Attributes : List String
deriving DecidableEq, Repr

/-- Structure `MetricsSource`. -/
structure MetricsSource where
  SearchRequest : SearchRequest
  MetricAttributes : List (String × MetricAttr)
  LabelAttributes : List (String × String)
deriving DecidableEq, Repr

/-- Constructor `NewMetricsSource`: the requested attribute list is the metric attribute
names followed by the label attribute names, each block in the order the
runtime enumerates the corresponding Go map (here: association-list order).
A nil filter defaults to match-all. -/
def NewMetricsSource (searchDN : String) (filter : Option String)
    (scope : Nat) (deref : Nat) (metric_attributes : List (String × MetricAttr))
    (label_attributes : List (String × String)) : MetricsSource :=
  let attrs := metric_attributes.map Prod.fst ++ label_attributes.map Prod.fst
  let f := filter.getD "(objectClass=*)"
  { SearchRequest := ⟨searchDN, scope, deref, f, attrs⟩
    MetricAttributes := metric_attributes
    LabelAttributes := label_attributes }

/-- Go-map insertion into the per-entry `labels` map: overwrite an existing
key, otherwise add the binding. -/
def insertLabel (labels : List (String × String)) (k v : String) :
    List (String × String) :=
  if labels.any (fun p => p.1 = k) then
    labels.map (fun p => if p.1 = k then (k, v) else p)
  else labels ++ [(k, v)]

/-- First loop of `scrapeMetrics` over one entry: collect every attribute
that maps to a declared output label; a multi-valued label attribute is an
error. -/
def collectEntryLabels (labelAttrs : List (String × String)) :
    List EntryAttribute → List (String × String) → Except String (List (String × String))
  | [], labels => .ok labels
  | attrib :: rest, labels =>
    match labelAttrs.lookup attrib.Name with
    | some remapped_label_name =>
      match attrib.Values with
      | [v] => collectEntryLabels labelAttrs rest (insertLabel labels remapped_label_name v)
      | _ =>
        .error ("attribute " ++ attrib.Name ++
          " is a label type but has multiple values")
    | none => collectEntryLabels labelAttrs rest labels

/-- Second loop of `scrapeMetrics` over one entry: dispatch each attribute
to its metric strategy and forward the produced samples; an attribute
matching neither mapping is an error.  The first component is the list of
metrics sent to the channel before returning; `none` models a panic. -/
def entryMetricsLoop (m : MetricsSource) (labels : List (String × String)) :
    List EntryAttribute → Option (List Metric × Option String)
  | [] => some ([], none)
  | attrib :: rest =>
    match m.MetricAttributes.lookup attrib.Name with
    | none =>
      if (m.LabelAttributes.lookup attrib.Name).isNone then
        some ([], some ("server sent us an attribute we do not recognize (" ++
          attrib.Name ++ "); this is likely a bug in the exporter"))
      else entryMetricsLoop m labels rest
    | some metricVec =>
      match metricVec.ParseDispatch labels attrib with
      | none => none
      | some (.error e) => some ([], some ("while scraping: " ++ e))
      | some (.ok metrics) =>
        match entryMetricsLoop m labels rest with
        | none => none
        | some (tl, err) => some (metrics ++ tl, err)

/-- Processing of one entry of a search result: label collection and the
label-cardinality check run before any metric is emitted for the entry. -/
def processEntry (m : MetricsSource) (e : Entry) :
    Option (List Metric × Option String) :=
  match collectEntryLabels m.LabelAttributes e.Attributes [] with
  | .error err => some ([], some err)
  | .ok labels =>
    if labels.length ≠ m.LabelAttributes.length then
      some ([], some "required label attributes weren't found, thus metrics can't be exported for this query")
    else entryMetricsLoop m labels e.Attributes

/-- Model of `MetricsSource.scrapeMetrics` over the entries of a search result:
emitted metrics accumulate until the first error, which aborts the source. -/
def scrapeMetricsEntries (m : MetricsSource) :
    List Entry → Option (List Metric × Option String)
  | [] => some ([], none)
  | e :: rest =>
    match processEntry m e with
    | none => none
    | some (ms, some err) => some (ms, some err)
    | some (ms, none) =>
      match scrapeMetricsEntries m rest with
      | none => none
      | some (tl, err) => some (ms ++ tl, err)

/-- Exporter self-metric state: the four process-lifetime gauges/counters. -/
structure ExporterState where
  duration : ℚ
  scrapeError : ℚ
  totalErrors : ℚ
  totalScrapes : ℚ
deriving DecidableEq, Repr

/-- The per-source loop of `Exporter.scrape`: a failed search or a failed
extraction counts one failure and the loop continues with the next source.
Returns the emitted metrics and the failure count of the cycle. -/
def scrapeLoop (search : SearchRequest → Except String (List Entry)) :
    List MetricsSource → Option (List Metric × Nat)
  | [] => some ([], 0)
  | source :: rest =>
    match search source.SearchRequest with
    | .error _ => (scrapeLoop search rest).map (fun p => (p.1, p.2 + 1))
    | .ok entries =>
      match scrapeMetricsEntries source entries with
      | none => none
      | some (ms, some _) => (scrapeLoop search rest).map (fun p => (ms ++ p.1, p.2 + 1))
      | some (ms, none) => (scrapeLoop search rest).map (fun p => (ms ++ p.1, p.2))

/-- Model of `Exporter.scrape`: bump the total-scrape counter, run every source, then
(in the deferred function) record the elapsed time, overwrite the
last-scrape-error gauge with this cycle's failure count and accumulate it
into the total-error counter.  The wall clock is passed in as `elapsed`. -/
def Exporter.scrape (st : ExporterState) (elapsed : ℚ)
    (search : SearchRequest → Except String (List Entry))
    (sources : List MetricsSource) : Option (ExporterState × List Metric) :=
  (scrapeLoop search sources).map (fun p =>
    ({ duration := elapsed
       scrapeError := (p.2 : ℚ)
       totalErrors := st.totalErrors + (p.2 : ℚ)
       totalScrapes := st.totalScrapes + 1 }, p.1))

/-- One item sent on the collect channel: a produced sample or one of the
four self-metrics. -/
inductive Emitted where
  | sample (m : Metric)
  | selfDuration (v : ℚ)
  | selfTotalScrapes (v : ℚ)
  | selfTotalErrors (v : ℚ)
  | selfScrapeError (v : ℚ)
deriving DecidableEq, Repr

/-- Model of `Exporter.Collect`: run the scrape, then send the four self-metrics
after the produced samples, in source order (duration, total scrapes, total
errors, last scrape error). -/
def Exporter.Collect (st : ExporterState) (elapsed : ℚ)
    (search : SearchRequest → Except String (List Entry))
    (sources : List MetricsSource) : Option (ExporterState × List Emitted) :=
  (Exporter.scrape st elapsed search sources).map (fun p =>
    (p.1, p.2.map Emitted.sample ++
      [Emitted.selfDuration p.1.duration,
       Emitted.selfTotalScrapes p.1.totalScrapes,
       Emitted.selfTotalErrors p.1.totalErrors,
       Emitted.selfScrapeError p.1.scrapeError]))

/-- The label-name loop of `metricAttributeConfig.UnmarshalYAML`: a label
whose trimmed length differs from its length is rejected.  (This is the
code's whole check; note that it accepts the empty string, although its own
error text demands non-emptiness.) -/
def validateMetricAttributeLabels : List String → Except String Unit
  | [] => .ok ()
  | label :: rest =>
    if (trimSpace label).length ≠ label.length then
      .error ("label cannot have whitespace and must be nonempty: " ++ label)
    else validateMetricAttributeLabels rest

/-- The constant-label loop of `metricSourceConfig.UnmarshalYAML` (it
checks the label values). -/
def validateConstantLabels : List (String × String) → Except String Unit
  | [] => .ok ()
  | (_, value) :: rest =>
    if (trimSpace value).length ≠ value.length then
      .error ("constant label cannot have whitespace and must be nonempty: " ++ value)
    else validateConstantLabels rest

/-- The duplicate-output-label loop of `metricSourceConfig.UnmarshalYAML`:
walk the attribute→label mapping in map-iteration order, rejecting a final
label name already accumulated in `labelsFromAttributes`. -/
def buildLabelsFromAttributesAux : List (String × String) → List String →
    Except String (List String)
  | [], acc => .ok acc
  | (src, final_name) :: rest, acc =>
    if final_name ∈ acc then
      .error ("duplicate label names found for " ++ src ++ "->" ++ final_name)
    else buildLabelsFromAttributesAux rest (acc ++ [final_name])

/-- Accumulated `labelsFromAttributes` list (starts empty for each source). -/
def buildLabelsFromAttributes (pairs : List (String × String)) :
    Except String (List String) :=
  buildLabelsFromAttributesAux pairs []

/-- Structure `metricAttributeConfig` after structural decoding (its strict-schema
overflow map is already checked empty at decode time and is not carried). -/
structure metricAttributeConfig where
  Name : String
  Typ : String
  Labels : List String
  Translator : Option (List TmplPiece)
  Help : String
deriving DecidableEq, Repr

/-- Default gauge naming template `\x7b\x7b .section \x7d\x7d_\x7b\x7b .attribute \x7d\x7d`. -/
def defaultmetricNameTemplate : List TmplPiece :=
  [.field "section", .lit "_", .field "attribute"]

/-- Default counter naming template
`\x7b\x7b .section \x7d\x7d_\x7b\x7b .attribute \x7d\x7d_total`. -/
def defaultCounterNameTemplate : List TmplPiece :=
  [.field "section", .lit "_", .field "attribute", .lit "_total"]

/-- Model of `metricSourceConfig.createMetricAttribute`: resolve the help text,
render the metric name from the per-kind naming template when no explicit
name is given, prepend the namespace, assemble the label list
(attribute-derived labels first), and build the typed attribute. -/
def createMetricAttribute (sectionName : String)
    (counterNameTemplate gaugeNameTemplate : List TmplPiece)
    (constantLabels : List (String × String)) (labelsFromAttributes : List String)
    (a : metricAttributeConfig) (attrName : String) : Except String MetricAttr :=
  let help := if a.Help = "" then "No help provided" else a.Help
  let setName (t : List TmplPiece) : Except String String :=
    if a.Name = "" then
      match executeTemplate t
          [("section", .str sectionName), ("attribute", .str attrName)] with
      | .ok rendered => .ok ("ldap_" ++ rendered)
      | .error e => .error ("attribute " ++ attrName ++ " naming error: " ++ e)
    else .ok ("ldap_" ++ a.Name)
  let labels :=
    if labelsFromAttributes.length ≠ 0 then labelsFromAttributes ++ a.Labels
    else a.Labels
  match a.Typ with
  | "counter" =>
    match setName counterNameTemplate with
    | .error e => .error e
    | .ok nm =>
      .ok (.counter (NewCounterMetricAttribute nm labels constantLabels a.Translator help))
  | "gauge" =>
    match setName gaugeNameTemplate with
    | .error e => .error e
    | .ok nm =>
      .ok (.gauge (NewGaugeMetricAttribute nm labels constantLabels a.Translator help))
  | _ => .error ("type " ++ a.Typ ++ " isn't valid for attribute " ++ attrName)

/-- The metric-attribute construction loop of
`metricSourceConfig.UnmarshalYAML`, in map-iteration order. -/
def buildMetricAttributes (sectionName : String)
    (counterNameTemplate gaugeNameTemplate : List TmplPiece)
    (constantLabels : List (String × String)) (labelsFromAttributes : List String) :
    List (String × metricAttributeConfig) → Except String (List (String × MetricAttr))
  | [] => .ok []
  | (attrName, mc) :: rest =>
    match createMetricAttribute sectionName counterNameTemplate gaugeNameTemplate
        constantLabels labelsFromAttributes mc attrName with
    | .error e => .error e
    | .ok ma =>
      match buildMetricAttributes sectionName counterNameTemplate gaugeNameTemplate
          constantLabels labelsFromAttributes rest with
      | .error e => .error e
      | .ok tl => .ok ((attrName, ma) :: tl)

/-- One source section of the configuration document after structural
decoding: the scalar fields plus the two attribute maps.  The association
lists carry the map contents in the order the runtime enumerates them; a
reload of the same document has the same contents but possibly another
order. -/
structure metricSourceConfigModel where
  Name : String
  Search : String
  Filter : Option String
  Scope : Option Nat
  Deref : Option Nat
  CounterNameTemplate : Option (List TmplPiece)
  GaugeNameTemplate : Option (List TmplPiece)
  AttrLabels : List (String × String)
  AttrMetrics : List (String × metricAttributeConfig)
  ConstantLabels : List (String × String)
deriving DecidableEq, Repr

/-- The load pipeline for one source section: the validation and defaulting
steps of `metricSourceConfig.UnmarshalYAML` followed by `NewMetricsSource`
(defaults: match-all filter, base scope `0`, deref-always `3`, the two
default naming templates). -/
def processSource (cfg : metricSourceConfigModel) : Except String MetricsSource :=
  match validateConstantLabels cfg.ConstantLabels with
  | .error e => .error e
  | .ok _ =>
    match buildLabelsFromAttributes cfg.AttrLabels with
    | .error e => .error e
    | .ok labelsFromAttributes =>
      match buildMetricAttributes cfg.Name
          (cfg.CounterNameTemplate.getD defaultCounterNameTemplate)
          (cfg.GaugeNameTemplate.getD defaultmetricNameTemplate)
          cfg.ConstantLabels labelsFromAttributes cfg.AttrMetrics with
      | .error e => .error e
      | .ok metricAttributes =>
        .ok (NewMetricsSource cfg.Search cfg.Filter (cfg.Scope.getD 0)
          (cfg.Deref.getD 3) metricAttributes cfg.AttrLabels)

/-! Concrete objects used to instantiate the theorems below. -/

/-- A counter attribute without translator and without labels. -/
def exCounter : CounterMetricAttribute :=
  NewCounterMetricAttribute "ldap_logins_total" [] [] none "No help provided"

/-- A gauge attribute without translator and without labels. -/
def exGauge : GaugeMetricAttribute :=
  NewGaugeMetricAttribute "ldap_quota" [] [] none "No help provided"

/-- A constant translator template rendering the two-result document of the
specification example. -/
def exTwoRowTmpl : List TmplPiece :=
  [.lit "[\x7bvalue: 2, labels: \x7bstatus: ok\x7d\x7d, \x7bvalue: 5, labels: \x7bstatus: fail\x7d\x7d]"]

/-- A constant translator template rendering a document with an extra field. -/
def exBogusFieldTmpl : List TmplPiece :=
  [.lit "[\x7bvalue: 2, labels: \x7bstatus: ok\x7d, bogus: 1\x7d]"]

/-- A translator template referencing a field the input map does not have. -/
def exUndefinedFieldTmpl : List TmplPiece :=
  [.field "nope"]

/-- A gauge attribute with the two-row translator and one declared label. -/
def exGaugeTrans : GaugeMetricAttribute :=
  NewGaugeMetricAttribute "ldap_status" ["status"] [] (some exTwoRowTmpl) "No help provided"

/-- A counter attribute with the two-row translator and one declared label. -/
def exCounterTrans : CounterMetricAttribute :=
  NewCounterMetricAttribute "ldap_status_total" ["status"] [] (some exTwoRowTmpl) "No help provided"

/-- The end-to-end example source: label attribute `cn -> user`, counter
metric attribute `loginCount`. -/
def exSource : MetricsSource :=
  NewMetricsSource "ou=people,dc=example,dc=com" none 0 3
    [("loginCount", .counter (NewCounterMetricAttribute "ldap_logins" ["user"] [] none "No help provided"))]
    [("cn", "user")]

/-- A source whose search will be made to fail in the two-source scenario. -/
def exFailingSource : MetricsSource :=
  NewMetricsSource "dc=down,dc=example,dc=com" none 0 3
    [("loginCount", .counter (NewCounterMetricAttribute "ldap_logins" ["user"] [] none "No help provided"))]
    [("cn", "user")]

/-- The entry `cn=alice, loginCount=4`. -/
def exEntry : Entry :=
  ⟨[⟨"cn", ["alice"]⟩, ⟨"loginCount", ["4"]⟩]⟩

/-- An entry missing the declared label attribute `cn`. -/
def exEntryMissingLabel : Entry :=
  ⟨[⟨"loginCount", ["4"]⟩]⟩

/-- The search function of the two-source scenario: the first source's base
DN fails, every other search returns the single example entry. -/
def exSearch (req : SearchRequest) : Except String (List Entry) :=
  if req.BaseDN = "dc=down,dc=example,dc=com" then .error "ldap: server down"
  else .ok [exEntry]

/-- A metric attribute section used by the load-determinism configuration. -/
def exMetricCfg : metricAttributeConfig :=
  ⟨"", "counter", [], none, "h"⟩

/-- One source section with two metric attributes, enumerated `a` then `b`. -/
def exCfgA : metricSourceConfigModel :=
  ⟨"users", "dc=example,dc=com", none, none, none, none, none,
    [], [("a", exMetricCfg), ("b", exMetricCfg)], []⟩

/-- The same source section contents with its metric-attribute map
enumerated `b` then `a` (the other map-iteration order). -/
def exCfgB : metricSourceConfigModel :=
  ⟨"users", "dc=example,dc=com", none, none, none, none, none,
    [], [("b", exMetricCfg), ("a", exMetricCfg)], []⟩

/-- A duplicate output-label mapping: `uid` and `cn` both mapped to `user`. -/
def exDupLabels : List (String × String) :=
  [("uid", "user"), ("cn", "user")]

/-! Helper lemmas. -/

/-- A successful `buildOrderedLabels` resolves the names pointwise through
the prioritized source scan. -/
lemma buildOrderedLabels_ok_iff (names : List String)
    (srcs : List (List (String × String))) (ls : List String) :
    buildOrderedLabels names srcs = .ok ls ↔
      List.Forall₂ (fun n v => lookupSources n srcs = some v) names ls := by
  induction names generalizing ls with
  | nil =>
    simp only [buildOrderedLabels]
    constructor
    · intro h
      cases h
      exact List.Forall₂.nil
    · intro h
      cases h
      rfl
  | cons n rest ih =>
    simp only [buildOrderedLabels]
    constructor
    · intro h
      cases hl : lookupSources n srcs with
      | none => rw [hl] at h; cases h
      | some v =>
        rw [hl] at h
        cases hr : buildOrderedLabels rest srcs with
        | error e => rw [hr] at h; cases h
        | ok tl =>
          rw [hr] at h
          cases h
          exact List.Forall₂.cons hl ((ih tl).mp hr)
    · intro h
      cases h with
      | cons hv htl =>
        rw [hv, (ih _).mpr htl]

/-- A successful `buildOrderedLabels` has one value per name. -/
lemma buildOrderedLabels_length (names : List String)
    (srcs : List (List (String × String))) (ls : List String)
    (h : buildOrderedLabels names srcs = .ok ls) : ls.length = names.length :=
  ((buildOrderedLabels_ok_iff names srcs ls).mp h).length_eq.symm

/-- Every name of a successful `buildOrderedLabels` is found in some source. -/
lemma buildOrderedLabels_isSome_of_ok (names : List String)
    (srcs : List (List (String × String))) (ls : List String)
    (h : buildOrderedLabels names srcs = .ok ls) :
    ∀ n ∈ names, (lookupSources n srcs).isSome := by
  induction names generalizing ls with
  | nil =>
    intro n hn
    cases hn
  | cons hd rest ih =>
    simp only [buildOrderedLabels] at h
    split at h
    next v hv =>
      split at h
      next tl htl =>
        intro n hn
        rcases List.mem_cons.mp hn with rfl | hmem
        · simp [hv]
        · exact ih tl htl n hmem
      next e htl => simp at h
    next hv => simp at h

/-- A name found in no source makes `buildOrderedLabels` fail. -/
lemma buildOrderedLabels_error_of_missing (names : List String)
    (srcs : List (List (String × String))) (n : String) (hn : n ∈ names)
    (hmiss : lookupSources n srcs = none) :
    ∃ e, buildOrderedLabels names srcs = .error e := by
  induction names with
  | nil => cases hn
  | cons hd rest ih =>
    simp only [buildOrderedLabels]
    rcases List.mem_cons.mp hn with h | h
    · subst h
      rw [hmiss]
      exact ⟨_, rfl⟩
    · cases hl : lookupSources hd srcs with
      | none => exact ⟨_, rfl⟩
      | some v =>
        obtain ⟨e, he⟩ := ih h
        rw [he]
        exact ⟨e, rfl⟩

/-- Every metric built by the translated-values loop carries the requested
value type. -/
lemma buildTranslatedMetrics_valueType (desc : Desc) (vt : ValueType)
    (dls : List String) (extra : List (String × String))
    (rs : List translationResult) (ms : List Metric)
    (h : buildTranslatedMetrics desc vt dls extra rs = .ok ms) :
    ∀ m ∈ ms, m.valueType = vt := by
  induction rs generalizing ms with
  | nil =>
    cases h
    intro m hm
    cases hm
  | cons r rest ih =>
    simp only [buildTranslatedMetrics] at h
    split at h
    next e hb => simp at h
    next labels hb =>
      split at h
      next e hc => simp at h
      next metric hc =>
        split at h
        next e hr => simp at h
        next tl hr =>
          cases h
          intro m hm
          rcases List.mem_cons.mp hm with h | h
          · subst h
            unfold NewConstMetric at hc
            split at hc
            · cases hc; rfl
            · cases hc
          · exact ih tl hr m h

/-- If the translated-values loop succeeds then every translation result's
labels resolved. -/
lemma buildTranslatedMetrics_resolvable (desc : Desc) (vt : ValueType)
    (dls : List String) (extra : List (String × String))
    (rs : List translationResult) (ms : List Metric)
    (h : buildTranslatedMetrics desc vt dls extra rs = .ok ms) :
    ∀ r ∈ rs, ∃ ls, buildOrderedLabels dls [r.Labels, extra] = .ok ls := by
  induction rs generalizing ms with
  | nil =>
    intro r hr
    cases hr
  | cons r rest ih =>
    simp only [buildTranslatedMetrics] at h
    split at h
    next e hb => simp at h
    next labels hb =>
      split at h
      next e hc => simp at h
      next metric hc =>
        split at h
        next e hr2 => simp at h
        next tl hr2 =>
          intro x hx
          rcases List.mem_cons.mp hx with hh | hh
          · subst hh
            exact ⟨labels, hb⟩
          · exact ih tl hr2 x hh

/-- Unfolding of the translator-free counter parse at a singleton value. -/
lemma counterParse_noTrans_single (desc : Desc) (clabels : List String)
    (extra : List (String × String)) (name v : String) :
    CounterMetricAttribute.Parse ⟨desc, clabels, none⟩ extra ⟨name, [v]⟩ =
      some (
        match parseUint10_64 v with
        | none => .error "strconv.ParseUint: parsing: invalid syntax"
        | some x =>
          match buildOrderedLabels clabels [extra] with
          | .error e => .error e
          | .ok labels =>
            match NewConstMetric desc .counterValue (x : ℚ) labels with
            | .error e => .error e
            | .ok metric => .ok [metric]) := rfl

/-- Unfolding of the translator-free counter parse at an empty value list. -/
lemma counterParse_noTrans_nil (desc : Desc) (clabels : List String)
    (extra : List (String × String)) (name : String) :
    CounterMetricAttribute.Parse ⟨desc, clabels, none⟩ extra ⟨name, []⟩ =
      some (.error ("Attribute " ++ name ++
        " resulted in a match count other than one, but no translator was defined")) := rfl

/-- Unfolding of the translator-free counter parse at two or more values. -/
lemma counterParse_noTrans_multi (desc : Desc) (clabels : List String)
    (extra : List (String × String)) (name v1 v2 : String) (vs : List String) :
    CounterMetricAttribute.Parse ⟨desc, clabels, none⟩ extra ⟨name, v1 :: v2 :: vs⟩ =
      some (.error ("Attribute " ++ name ++
        " resulted in a match count other than one, but no translator was defined")) := rfl

/-- Unfolding of the translator-free gauge parse at a singleton value. -/
lemma gaugeParse_noTrans_single (desc : Desc) (glabels : List String)
    (extra : List (String × String)) (name v : String) :
    GaugeMetricAttribute.Parse ⟨desc, glabels, none⟩ extra ⟨name, [v]⟩ =
      some (
        match parseFloat64 v with
        | none => .error "strconv.ParseFloat: parsing: invalid syntax"
        | some x =>
          match buildOrderedLabels glabels [extra] with
          | .error e => .error e
          | .ok labels =>
            match NewConstMetric desc .counterValue x labels with
            | .error e => .error ("Failed creating metric: " ++ e)
            | .ok metric => .ok [metric]) := rfl

/-- Unfolding of the translator-free gauge parse at an empty value list. -/
lemma gaugeParse_noTrans_nil (desc : Desc) (glabels : List String)
    (extra : List (String × String)) (name : String) :
    GaugeMetricAttribute.Parse ⟨desc, glabels, none⟩ extra ⟨name, []⟩ =
      some (.error ("Attribute " ++ name ++
        " resulted in a match count other than one, but no translator was defined")) := rfl

/-- Unfolding of the translator-free gauge parse at two or more values. -/
lemma gaugeParse_noTrans_multi (desc : Desc) (glabels : List String)
    (extra : List (String × String)) (name v1 v2 : String) (vs : List String) :
    GaugeMetricAttribute.Parse ⟨desc, glabels, none⟩ extra ⟨name, v1 :: v2 :: vs⟩ =
      some (.error ("Attribute " ++ name ++
        " resulted in a match count other than one, but no translator was defined")) := rfl

/-- Unfolding of the translator path of the counter parse. -/
lemma counterParse_trans (desc : Desc) (clabels : List String) (t : List TmplPiece)
    (extra : List (String × String)) (entry : EntryAttribute) :
    CounterMetricAttribute.Parse ⟨desc, clabels, some t⟩ extra entry =
      (do_the_translation_thing t entry.Values).map (fun res =>
        match res with
        | .error e => .error e
        | .ok values => buildTranslatedMetrics desc .counterValue clabels extra values) := rfl

/-- Unfolding of the translator path of the gauge parse. -/
lemma gaugeParse_trans (desc : Desc) (glabels : List String) (t : List TmplPiece)
    (extra : List (String × String)) (entry : EntryAttribute) :
    GaugeMetricAttribute.Parse ⟨desc, glabels, some t⟩ extra entry =
      (do_the_translation_thing t entry.Values).map (fun res =>
        match res with
        | .error e => .error e
        | .ok values => buildTranslatedMetrics desc .gaugeValue glabels extra values) := rfl

/-- Unfolding of the translator evaluation at a non-empty value list. -/
lemma do_thing_cons (t : List TmplPiece) (v0 : String) (vrest : List String) :
    do_the_translation_thing t (v0 :: vrest) =
      some (
        match executeTemplate t
            [("values", TmplValue.list (v0 :: vrest)), ("value", TmplValue.str v0)] with
        | .error e => .error ("failed parsing for value: " ++ e)
        | .ok rendered =>
          match parseYamlDoc rendered with
          | .error e =>
            .error ("failed parsing value due to " ++ e ++
              "; intermediate yaml was:\n" ++ rendered)
          | .ok doc =>
            match decodeTranslationResults doc with
            | .error e =>
              .error ("failed parsing value due to " ++ e ++
                "; intermediate yaml was:\n" ++ rendered)
            | .ok results =>
              match checkResultsOverflow 0 results with
              | .error e => .error e
              | .ok _ => .ok results) := rfl

/-- A template execution that succeeded referenced only fields present in
the input map. -/
lemma executeTemplateAux_ok_field (t : List TmplPiece)
    (input : List (String × TmplValue)) (acc r : String)
    (h : executeTemplateAux t input acc = .ok r) :
    ∀ f, TmplPiece.field f ∈ t → (input.lookup f).isSome := by
  induction t generalizing acc with
  | nil =>
    intro f hf
    cases hf
  | cons p rest ih =>
    cases p with
    | lit s =>
      intro f hf
      rcases List.mem_cons.mp hf with hh | hh
      · cases hh
      · exact ih _ h f hh
    | field n =>
      simp only [executeTemplateAux] at h
      split at h
      next v hl =>
        intro f hf
        rcases List.mem_cons.mp hf with hh | hh
        · cases hh
          simp [hl]
        · exact ih _ h f hh
      next hl => simp at h

/-- Lemma: `List.lookup` only returns pairs of the list. -/
lemma lookup_mem {β : Type} (k : String) (ps : List (String × β)) (v : β)
    (h : ps.lookup k = some v) : (k, v) ∈ ps := by
  induction ps with
  | nil => cases h
  | cons p rest ih =>
    obtain ⟨pk, pv⟩ := p
    simp only [List.lookup] at h
    split at h
    next heq =>
      cases h
      have hk : k = pk := by simpa using heq
      subst hk
      exact List.mem_cons_self _ _
    next heq => exact List.mem_cons_of_mem _ (ih h)

/-! Claim theorems. -/

/-- C1: for every metric attribute configured without a translator, `Parse`
succeeds only when the scraped attribute carries exactly one raw value; a
counter attribute parses that value as an unsigned integer and a gauge
attribute parses it as a floating-point number, yielding exactly one sample
with that numeric value; any other value count or a non-parsing value
yields an error (and hence zero samples). -/
theorem C1_no_translator_parse :
    (∀ (c : CounterMetricAttribute) (extra : List (String × String)) (entry : EntryAttribute),
      c.translator = none →
      (entry.Values.length ≠ 1 → ∃ e, c.Parse extra entry = some (.error e)) ∧
      (∀ v, entry.Values = [v] → parseUint10_64 v = none →
        ∃ e, c.Parse extra entry = some (.error e)) ∧
      (∀ v n ls, entry.Values = [v] → parseUint10_64 v = some n →
        buildOrderedLabels c.labels [extra] = .ok ls →
        c.Desc.variableLabels.length = c.labels.length →
        c.Parse extra entry = some (.ok [⟨c.Desc, .counterValue, (n : ℚ), ls⟩]))) ∧
    (∀ (g : GaugeMetricAttribute) (extra : List (String × String)) (entry : EntryAttribute),
      g.translator = none →
      (entry.Values.length ≠ 1 → ∃ e, g.Parse extra entry = some (.error e)) ∧
      (∀ v, entry.Values = [v] → parseFloat64 v = none →
        ∃ e, g.Parse extra entry = some (.error e)) ∧
      (∀ v q ls, entry.Values = [v] → parseFloat64 v = some q →
        buildOrderedLabels g.labels [extra] = .ok ls →
        g.Desc.variableLabels.length = g.labels.length →
        g.Parse extra entry = some (.ok [⟨g.Desc, .counterValue, q, ls⟩]))) := by
  constructor
  · intro c extra entry htr
    obtain ⟨desc, clabels, ctr⟩ := c
    simp only at htr
    subst htr
    obtain ⟨name, values⟩ := entry
    refine ⟨?_, ?_, ?_⟩
    · intro hne
      cases values with
      | nil => exact ⟨_, counterParse_noTrans_nil desc clabels extra name⟩
      | cons v vs =>
        cases vs with
        | nil => simp at hne
        | cons v2 vs2 => exact ⟨_, counterParse_noTrans_multi desc clabels extra name v v2 vs2⟩
    · intro v hv hparse
      simp only at hv
      subst hv
      rw [counterParse_noTrans_single desc clabels extra name v, hparse]
      exact ⟨_, rfl⟩
    · intro v n ls hv hparse hlabels hlen
      simp only at hv hlabels hlen ⊢
      subst hv
      rw [counterParse_noTrans_single desc clabels extra name v, hparse, hlabels]
      have hok : NewConstMetric desc .counterValue (n : ℚ) ls =
          .ok ⟨desc, .counterValue, (n : ℚ), ls⟩ := by
        unfold NewConstMetric
        rw [if_pos]
        rw [hlen, buildOrderedLabels_length clabels [extra] ls hlabels]
      simp only [hok]
  · intro g extra entry htr
    obtain ⟨desc, glabels, gtr⟩ := g
    simp only at htr
    subst htr
    obtain ⟨name, values⟩ := entry
    refine ⟨?_, ?_, ?_⟩
    · intro hne
      cases values with
      | nil => exact ⟨_, gaugeParse_noTrans_nil desc glabels extra name⟩
      | cons v vs =>
        cases vs with
        | nil => simp at hne
        | cons v2 vs2 => exact ⟨_, gaugeParse_noTrans_multi desc glabels extra name v v2 vs2⟩
    · intro v hv hparse
      simp only at hv
      subst hv
      rw [gaugeParse_noTrans_single desc glabels extra name v, hparse]
      exact ⟨_, rfl⟩
    · intro v q ls hv hparse hlabels hlen
      simp only at hv hlabels hlen ⊢
      subst hv
      rw [gaugeParse_noTrans_single desc glabels extra name v, hparse, hlabels]
      have hok : NewConstMetric desc .counterValue q ls =
          .ok ⟨desc, .counterValue, q, ls⟩ := by
        unfold NewConstMetric
        rw [if_pos]
        rw [hlen, buildOrderedLabels_length glabels [extra] ls hlabels]
      simp only [hok]

/-- Witness for C1: gauge `"3.5"` yields one sample of value `3.5`, counter
`"7"` one sample of value `7`, counter `"abc"` an error. -/
theorem C1_no_translator_parse_witness :
    (∃ q, parseFloat64 "3.5" = some q ∧ q = 7 / 2 ∧
      exGauge.Parse [] ⟨"quota", ["3.5"]⟩ =
        some (.ok [⟨exGauge.Desc, .counterValue, q, []⟩])) ∧
    (∃ n, parseUint10_64 "7" = some n ∧ (n : ℚ) = 7 ∧
      exCounter.Parse [] ⟨"loginCount", ["7"]⟩ =
        some (.ok [⟨exCounter.Desc, .counterValue, (n : ℚ), []⟩])) ∧
    (∃ e, exCounter.Parse [] ⟨"loginCount", ["abc"]⟩ = some (.error e)) := by
  refine ⟨⟨_, rfl, ?_, ?_⟩, ⟨_, rfl, ?_, ?_⟩, ?_⟩
  · show (1 : ℚ) * (((3 : ℕ) : ℚ) + ((5 : ℕ) : ℚ) / (10 : ℚ) ^ (1 : ℕ)) *
        (10 : ℚ) ^ (0 : ℤ) = 7 / 2
    push_cast
    norm_num
  · exact (C1_no_translator_parse.2 exGauge [] ⟨"quota", ["3.5"]⟩ rfl).2.2
      "3.5" _ [] rfl rfl rfl rfl
  · show (((7 : ℕ) : ℚ)) = 7
    norm_num
  · exact (C1_no_translator_parse.1 exCounter [] ⟨"loginCount", ["7"]⟩ rfl).2.2
      "7" _ [] rfl rfl rfl rfl
  · exact (C1_no_translator_parse.1 exCounter [] ⟨"loginCount", ["abc"]⟩ rfl).2.1
      "abc" rfl (by decide)

/-- C2: on the translator path each declared ordered label name is resolved
from, in priority order, (1) the translation's own label map and (2) the
caller-supplied labels; a name found in neither makes the operation fail,
and when a name is present in both sources the translation-provided value
is used. -/
theorem C2_translator_label_resolution :
    (∀ (names : List String) (s1 s2 : List (String × String)) (ls : List String),
      buildOrderedLabels names [s1, s2] = .ok ls ↔
        List.Forall₂ (fun n v => lookupSources n [s1, s2] = some v) names ls) ∧
    (∀ (n : String) (s1 s2 : List (String × String)) (v : String),
      s1.lookup n = some v → lookupSources n [s1, s2] = some v) ∧
    (∀ (n : String) (s1 s2 : List (String × String)),
      s1.lookup n = none → lookupSources n [s1, s2] = s2.lookup n) ∧
    (∀ (names : List String) (s1 s2 : List (String × String)) (n : String),
      n ∈ names → lookupSources n [s1, s2] = none →
      ∃ e, buildOrderedLabels names [s1, s2] = .error e) ∧
    (∀ (desc : Desc) (clabels : List String) (t : List TmplPiece)
      (extra : List (String × String)) (entry : EntryAttribute)
      (rs : List translationResult) (ms : List Metric),
      do_the_translation_thing t entry.Values = some (.ok rs) →
      CounterMetricAttribute.Parse ⟨desc, clabels, some t⟩ extra entry = some (.ok ms) →
      ∀ r ∈ rs, ∃ ls, buildOrderedLabels clabels [r.Labels, extra] = .ok ls) := by
  refine ⟨?_, ?_, ?_, ?_, ?_⟩
  · intro names s1 s2 ls
    exact buildOrderedLabels_ok_iff names [s1, s2] ls
  · intro n s1 s2 v h
    simp [lookupSources, h]
  · intro n s1 s2 h
    cases h2 : s2.lookup n <;> simp [lookupSources, h, h2]
  · intro names s1 s2 n hn hmiss
    exact buildOrderedLabels_error_of_missing names [s1, s2] n hn hmiss
  · intro desc clabels t extra entry rs ms hdo hp
    rw [counterParse_trans, hdo] at hp
    have hb : buildTranslatedMetrics desc .counterValue clabels extra rs = .ok ms := by
      simpa [Option.map] using hp
    exact buildTranslatedMetrics_resolvable desc .counterValue clabels extra rs ms hb

/-- Witness for C2: with the label declared in both the translation map and
the caller labels, the translation value wins; a label in neither source
fails. -/
theorem C2_translator_label_resolution_witness :
    buildOrderedLabels ["status"] [[("status", "fromTranslation")], [("status", "fromCaller")]] =
      .ok ["fromTranslation"] ∧
    (∃ e, buildOrderedLabels ["user"] [[("status", "fromTranslation")], [("status", "fromCaller")]] =
      .error e) := by
  constructor
  · exact (C2_translator_label_resolution.1 ["status"] [("status", "fromTranslation")]
      [("status", "fromCaller")] ["fromTranslation"]).mpr
      (List.Forall₂.cons (by decide) List.Forall₂.nil)
  · exact C2_translator_label_resolution.2.2.2.1 ["user"] [("status", "fromTranslation")]
      [("status", "fromCaller")] "user" (by decide) (by decide)

/-- C3: a translator rendering the two-row document yields exactly two
translation results with those values and label maps in rendered order; a
template referencing an undefined field fails evaluation; an extra field in
a rendered result is an error. -/
theorem C3_translation_output_contract :
    (∃ rs, do_the_translation_thing exTwoRowTmpl ["x"] = some (.ok rs) ∧
      rs.length = 2 ∧
      rs.map translationResult.Value = [2, 5] ∧
      rs.map translationResult.Labels = [[("status", "ok")], [("status", "fail")]]) ∧
    (∀ (t : List TmplPiece) (v0 f : String) (vrest : List String),
      TmplPiece.field f ∈ t → f ≠ "values" → f ≠ "value" →
      ∃ e, do_the_translation_thing t (v0 :: vrest) = some (.error e)) ∧
    (∃ e, do_the_translation_thing exBogusFieldTmpl ["x"] = some (.error e)) := by
  refine ⟨?_, ?_, ?_⟩
  · refine ⟨_, rfl, rfl, ?_, rfl⟩
    show [(1 : ℚ) * ((2 : ℕ) : ℚ) * (10 : ℚ) ^ (0 : ℤ),
          (1 : ℚ) * ((5 : ℕ) : ℚ) * (10 : ℚ) ^ (0 : ℤ)] = [2, 5]
    push_cast
    norm_num
  · intro t v0 f vrest hf hf1 hf2
    cases hexec : executeTemplate t
        [("values", TmplValue.list (v0 :: vrest)), ("value", TmplValue.str v0)] with
    | ok r =>
      exfalso
      have hsome := executeTemplateAux_ok_field t _ "" r hexec f hf
      have h1 : (f == "values") = false := beq_eq_false_iff_ne.mpr hf1
      have h2 : (f == "value") = false := beq_eq_false_iff_ne.mpr hf2
      simp [List.lookup, h1, h2] at hsome
    | error e =>
      rw [do_thing_cons, hexec]
      exact ⟨_, rfl⟩
  · exact ⟨_, rfl⟩

/-- Witness for C3: the undefined-field template fails at a concrete input. -/
theorem C3_translation_output_contract_witness :
    ∃ e, do_the_translation_thing exUndefinedFieldTmpl ["x"] = some (.error e) :=
  C3_translation_output_contract.2.1 exUndefinedFieldTmpl "x" "nope" []
    (by decide) (by decide) (by decide)

/-- C10: on the translator path, the translation evaluation reads the first
element of the value list unconditionally, so an empty value list panics
(modelled as `none`) rather than producing an error result; under the
precondition that the value list is non-empty, `Parse` is total. -/
theorem C10_translator_empty_values_panic :
    (∀ (t : List TmplPiece) (values : List String),
      do_the_translation_thing t values = none ↔ values = []) ∧
    (∀ (c : CounterMetricAttribute) (t : List TmplPiece)
      (extra : List (String × String)) (name : String),
      c.translator = some t → c.Parse extra ⟨name, []⟩ = none) ∧
    (∀ (g : GaugeMetricAttribute) (t : List TmplPiece)
      (extra : List (String × String)) (name : String),
      g.translator = some t → g.Parse extra ⟨name, []⟩ = none) ∧
    (∀ (c : CounterMetricAttribute) (t : List TmplPiece)
      (extra : List (String × String)) (entry : EntryAttribute),
      c.translator = some t → entry.Values ≠ [] → (c.Parse extra entry).isSome) ∧
    (∀ (g : GaugeMetricAttribute) (t : List TmplPiece)
      (extra : List (String × String)) (entry : EntryAttribute),
      g.translator = some t → entry.Values ≠ [] → (g.Parse extra entry).isSome) := by
  refine ⟨?_, ?_, ?_, ?_, ?_⟩
  · intro t values
    cases values with
    | nil => simp [do_the_translation_thing]
    | cons v vs => simp [do_thing_cons]
  · intro c t extra name htr
    obtain ⟨desc, clabels, ctr⟩ := c
    simp only at htr
    subst htr
    rfl
  · intro g t extra name htr
    obtain ⟨desc, glabels, gtr⟩ := g
    simp only at htr
    subst htr
    rfl
  · intro c t extra entry htr hne
    obtain ⟨desc, clabels, ctr⟩ := c
    simp only at htr
    subst htr
    obtain ⟨name, values⟩ := entry
    simp only at hne
    cases values with
    | nil => exact absurd rfl hne
    | cons v vs =>
      rw [counterParse_trans]
      simp [do_thing_cons]
  · intro g t extra entry htr hne
    obtain ⟨desc, glabels, gtr⟩ := g
    simp only at htr
    subst htr
    obtain ⟨name, values⟩ := entry
    simp only at hne
    cases values with
    | nil => exact absurd rfl hne
    | cons v vs =>
      rw [gaugeParse_trans]
      simp [do_thing_cons]

/-- Witness for C10: the two-row translator attribute panics on an empty
value list and is total on a one-element value list. -/
theorem C10_translator_empty_values_panic_witness :
    exCounterTrans.Parse [] ⟨"status", []⟩ = none ∧
    (exCounterTrans.Parse [] ⟨"status", ["x"]⟩).isSome ∧
    exGaugeTrans.Parse [] ⟨"status", []⟩ = none := by
  refine ⟨?_, ?_, ?_⟩
  · exact C10_translator_empty_values_panic.2.1 exCounterTrans exTwoRowTmpl [] "status" rfl
  · exact C10_translator_empty_values_panic.2.2.2.1 exCounterTrans exTwoRowTmpl []
      ⟨"status", ["x"]⟩ rfl (by decide)
  · exact C10_translator_empty_values_panic.2.2.1 exGaugeTrans exTwoRowTmpl [] "status" rfl

/-- C9: the non-translator path of the gauge parse constructs its single
sample with the counter value type (diverging from the attribute's declared
gauge kind), while every sample of the translator path carries the gauge
value type. -/
theorem C9_gauge_value_type_mismatch :
    (∀ (g : GaugeMetricAttribute) (extra : List (String × String))
      (entry : EntryAttribute) (ms : List Metric),
      g.translator = none → g.Parse extra entry = some (.ok ms) →
      ∃ m, ms = [m] ∧ m.valueType = .counterValue) ∧
    (∀ (g : GaugeMetricAttribute) (t : List TmplPiece)
      (extra : List (String × String)) (entry : EntryAttribute) (ms : List Metric),
      g.translator = some t → g.Parse extra entry = some (.ok ms) →
      ∀ m ∈ ms, m.valueType = .gaugeValue) := by
  constructor
  · intro g extra entry ms htr hp
    obtain ⟨desc, glabels, gtr⟩ := g
    simp only at htr
    subst htr
    obtain ⟨name, values⟩ := entry
    cases values with
    | nil =>
      rw [gaugeParse_noTrans_nil] at hp
      simp at hp
    | cons v vs =>
      cases vs with
      | nil =>
        rw [gaugeParse_noTrans_single] at hp
        split at hp
        next hpf => simp at hp
        next x hpf =>
          split at hp
          next e hbl => simp at hp
          next labels hbl =>
            split at hp
            next e hcm => simp at hp
            next metric hcm =>
              have hms : [metric] = ms := by simpa using hp
              refine ⟨metric, hms.symm, ?_⟩
              unfold NewConstMetric at hcm
              split at hcm
              · cases hcm
                rfl
              · cases hcm
      | cons v2 vs2 =>
        rw [gaugeParse_noTrans_multi] at hp
        simp at hp
  · intro g t extra entry ms htr hp
    obtain ⟨desc, glabels, gtr⟩ := g
    simp only at htr
    subst htr
    rw [gaugeParse_trans] at hp
    cases hdo : do_the_translation_thing t entry.Values with
    | none => rw [hdo] at hp; simp at hp
    | some res =>
      rw [hdo] at hp
      cases res with
      | error e => simp [Option.map] at hp
      | ok rs =>
        have hb : buildTranslatedMetrics desc .gaugeValue glabels extra rs = .ok ms := by
          simpa [Option.map] using hp
        exact buildTranslatedMetrics_valueType desc .gaugeValue glabels extra rs ms hb

/-- Witness for C9: the translator-free gauge `"3.5"` sample is
counter-typed; every sample of the translator gauge is gauge-typed. -/
theorem C9_gauge_value_type_mismatch_witness :
    (∃ ms m, exGauge.Parse [] ⟨"quota", ["3.5"]⟩ = some (.ok ms) ∧ ms = [m] ∧
      m.valueType = .counterValue) ∧
    (∃ ms, exGaugeTrans.Parse [] ⟨"status", ["x"]⟩ = some (.ok ms) ∧
      ∀ m ∈ ms, m.valueType = .gaugeValue) := by
  constructor
  · obtain ⟨ms, hms⟩ : ∃ ms, exGauge.Parse [] ⟨"quota", ["3.5"]⟩ = some (.ok ms) := ⟨_, rfl⟩
    obtain ⟨m, hm1, hm2⟩ := C9_gauge_value_type_mismatch.1 exGauge [] ⟨"quota", ["3.5"]⟩ ms rfl hms
    exact ⟨ms, m, hms, hm1, hm2⟩
  · obtain ⟨ms, hms⟩ : ∃ ms, exGaugeTrans.Parse [] ⟨"status", ["x"]⟩ = some (.ok ms) := ⟨_, rfl⟩
    exact ⟨ms, hms, C9_gauge_value_type_mismatch.2 exGaugeTrans exTwoRowTmpl []
      ⟨"status", ["x"]⟩ ms rfl hms⟩

/-- Replacing a binding keeps the key list unchanged. -/
lemma map_fst_replace (acc : List (String × String)) (k v : String) :
    (acc.map (fun p => if p.1 = k then (k, v) else p)).map Prod.fst =
      acc.map Prod.fst := by
  induction acc with
  | nil => rfl
  | cons p rest ih =>
    simp only [List.map_cons, ih]
    by_cases h : p.1 = k
    · simp [h]
    · simp [h]

/-- The keys after a Go-map insertion are the old keys plus possibly the
inserted key. -/
lemma insertLabel_keys_subset (acc : List (String × String)) (k v x : String)
    (hx : x ∈ (insertLabel acc k v).map Prod.fst) :
    x ∈ acc.map Prod.fst ∨ x = k := by
  unfold insertLabel at hx
  split at hx
  · rw [map_fst_replace] at hx
    exact Or.inl hx
  · rw [List.map_append] at hx
    rcases List.mem_append.mp hx with h | h
    · exact Or.inl h
    · simp at h
      exact Or.inr h

/-- Go-map insertion preserves key uniqueness. -/
lemma insertLabel_keys_nodup (acc : List (String × String)) (k v : String)
    (h : (acc.map Prod.fst).Nodup) :
    ((insertLabel acc k v).map Prod.fst).Nodup := by
  unfold insertLabel
  split
  next hany =>
    rw [map_fst_replace]
    exact h
  next hany =>
    rw [List.map_append]
    have hk : k ∉ acc.map Prod.fst := by
      intro hmem
      apply hany
      rw [List.any_eq_true]
      obtain ⟨p, hpmem, hpk⟩ := List.mem_map.mp hmem
      exact ⟨p, hpmem, by simp [hpk]⟩
    simp [List.nodup_append, h]
    intro x hx
    exact hk (List.mem_map_of_mem Prod.fst hx)

/-- Every key of a successful label collection comes from the accumulator
or from some attribute's remapped label name. -/
lemma collectEntryLabels_ok_keys (labelAttrs : List (String × String))
    (attrs : List EntryAttribute) (acc out : List (String × String))
    (h : collectEntryLabels labelAttrs attrs acc = .ok out) :
    ∀ x ∈ out.map Prod.fst,
      x ∈ acc.map Prod.fst ∨ ∃ a ∈ attrs, labelAttrs.lookup a.Name = some x := by
  induction attrs generalizing acc with
  | nil =>
    cases h
    intro x hx
    exact Or.inl hx
  | cons a rest ih =>
    simp only [collectEntryLabels] at h
    split at h
    next l hl =>
      split at h
      next v hv =>
        intro x hx
        rcases ih (insertLabel acc l v) h x hx with hin | ⟨b, hb, hlb⟩
        · rcases insertLabel_keys_subset acc l v x hin with h2 | h2
          · exact Or.inl h2
          · subst h2
            exact Or.inr ⟨a, List.mem_cons_self a rest, hl⟩
        · exact Or.inr ⟨b, List.mem_cons_of_mem a hb, hlb⟩
      next hv => simp at h
    next hl =>
      intro x hx
      rcases ih acc h x hx with hin | ⟨b, hb, hlb⟩
      · exact Or.inl hin
      · exact Or.inr ⟨b, List.mem_cons_of_mem a hb, hlb⟩

/-- A successful label collection keeps its keys duplicate-free. -/
lemma collectEntryLabels_ok_nodup (labelAttrs : List (String × String))
    (attrs : List EntryAttribute) (acc out : List (String × String))
    (h : collectEntryLabels labelAttrs attrs acc = .ok out)
    (hacc : (acc.map Prod.fst).Nodup) : (out.map Prod.fst).Nodup := by
  induction attrs generalizing acc with
  | nil =>
    cases h
    exact hacc
  | cons a rest ih =>
    simp only [collectEntryLabels] at h
    split at h
    next l hl =>
      split at h
      next v hv => exact ih (insertLabel acc l v) h (insertLabel_keys_nodup acc l v hacc)
      next hv => simp at h
    next hl => exact ih acc h hacc

/-- A multi-valued label attribute makes the label collection fail. -/
lemma collectEntryLabels_error_of_multivalued (labelAttrs : List (String × String))
    (attrs : List EntryAttribute) (acc : List (String × String))
    (hex : ∃ a ∈ attrs, (labelAttrs.lookup a.Name).isSome ∧ a.Values.length ≠ 1) :
    ∃ err, collectEntryLabels labelAttrs attrs acc = .error err := by
  induction attrs generalizing acc with
  | nil =>
    obtain ⟨a, ha, -⟩ := hex
    cases ha
  | cons a rest ih =>
    obtain ⟨b, hb, hbsome, hblen⟩ := hex
    rcases List.mem_cons.mp hb with rfl | hmem
    · cases hl : labelAttrs.lookup b.Name with
      | none =>
        rw [hl] at hbsome
        simp at hbsome
      | some l =>
        obtain ⟨bn, bvs⟩ := b
        simp only at hl hblen
        cases bvs with
        | nil =>
          exact ⟨"attribute " ++ bn ++ " is a label type but has multiple values",
            by simp only [collectEntryLabels, hl]⟩
        | cons v vs =>
          cases vs with
          | nil => simp at hblen
          | cons v2 vs2 =>
            exact ⟨"attribute " ++ bn ++ " is a label type but has multiple values",
              by simp only [collectEntryLabels, hl]⟩
    · obtain ⟨an, avs⟩ := a
      cases hl : labelAttrs.lookup an with
      | some l =>
        cases avs with
        | nil =>
          exact ⟨"attribute " ++ an ++ " is a label type but has multiple values",
            by simp only [collectEntryLabels, hl]⟩
        | cons v vs =>
          cases vs with
          | nil =>
            obtain ⟨err, herr⟩ := ih (insertLabel acc l v) ⟨b, hmem, hbsome, hblen⟩
            refine ⟨err, ?_⟩
            simp only [collectEntryLabels, hl]
            exact herr
          | cons v2 vs2 =>
            exact ⟨"attribute " ++ an ++ " is a label type but has multiple values",
              by simp only [collectEntryLabels, hl]⟩
      | none =>
        obtain ⟨err, herr⟩ := ih acc ⟨b, hmem, hbsome, hblen⟩
        refine ⟨err, ?_⟩
        simp only [collectEntryLabels, hl]
        exact herr

/-- C4: an entry that fails to produce exactly one value for each declared
label attribute (a label attribute missing from the entry or multi-valued)
is rejected with zero metric samples from that entry — no sample of the
entry is partially emitted.  (The uniqueness hypotheses on the
attribute→label mapping hold for every loaded source: Go map keys are
unique and duplicate output label names are a load-time error.) -/
theorem C4_entry_rejected_zero_samples :
    ∀ (m : MetricsSource) (e : Entry) (rest : List Entry),
      (m.LabelAttributes.map Prod.fst).Nodup →
      (m.LabelAttributes.map Prod.snd).Nodup →
      ((∃ a ∈ e.Attributes, (m.LabelAttributes.lookup a.Name).isSome ∧
          a.Values.length ≠ 1) ∨
        (∃ p ∈ m.LabelAttributes, ∀ a ∈ e.Attributes, a.Name ≠ p.1)) →
      ∃ err, processEntry m e = some ([], some err) ∧
        scrapeMetricsEntries m (e :: rest) = some ([], some err) := by
  intro m e rest hnd1 hnd2 hfail
  have hpe : ∃ err, processEntry m e = some ([], some err) := by
    rcases hfail with hmv | ⟨p, hp, habs⟩
    · obtain ⟨err, herr⟩ :=
        collectEntryLabels_error_of_multivalued m.LabelAttributes e.Attributes [] hmv
      refine ⟨err, ?_⟩
      simp only [processEntry, herr]
    · cases hcol : collectEntryLabels m.LabelAttributes e.Attributes [] with
      | error err =>
        refine ⟨err, ?_⟩
        simp only [processEntry, hcol]
      | ok labels =>
        obtain ⟨k, l⟩ := p
        have hkeys_nodup : (labels.map Prod.fst).Nodup :=
          collectEntryLabels_ok_nodup m.LabelAttributes e.Attributes [] labels hcol
            (by simp)
        have hsub : labels.map Prod.fst ⊆ (m.LabelAttributes.map Prod.snd).erase l := by
          intro x hx
          rcases collectEntryLabels_ok_keys m.LabelAttributes e.Attributes [] labels
              hcol x hx with hin | ⟨a, ha, hla⟩
          · simp at hin
          · have hmem2 : (a.Name, x) ∈ m.LabelAttributes :=
              lookup_mem a.Name m.LabelAttributes x hla
            have hxsnd : x ∈ m.LabelAttributes.map Prod.snd :=
              List.mem_map_of_mem Prod.snd hmem2
            have hxne : x ≠ l := by
              intro hxl
              subst hxl
              have heq := List.inj_on_of_nodup_map hnd2 hmem2 hp rfl
              exact habs a ha (congrArg Prod.fst heq)
            exact (List.mem_erase_of_ne hxne).mpr hxsnd
        have hlmem : l ∈ m.LabelAttributes.map Prod.snd :=
          List.mem_map_of_mem Prod.snd hp
        have hle : (labels.map Prod.fst).length ≤
            ((m.LabelAttributes.map Prod.snd).erase l).length :=
          (List.subperm_of_subset hkeys_nodup hsub).length_le
        have herase : ((m.LabelAttributes.map Prod.snd).erase l).length =
            (m.LabelAttributes.map Prod.snd).length - 1 :=
          List.length_erase_of_mem hlmem
        have hpos : 0 < (m.LabelAttributes.map Prod.snd).length :=
          List.length_pos.mpr (List.ne_nil_of_mem hlmem)
        have hne : labels.length ≠ m.LabelAttributes.length := by
          rw [List.length_map] at hle
          rw [List.length_map] at herase hpos
          omega
        exact ⟨"required label attributes weren't found, thus metrics can't be exported for this query",
          by simp only [processEntry, hcol]; rw [if_pos hne]⟩
  obtain ⟨err, herr⟩ := hpe
  refine ⟨err, herr, ?_⟩
  simp only [scrapeMetricsEntries, herr]

/-- Witness for C4: the example source rejects the entry missing its `cn`
label attribute with zero samples. -/
theorem C4_entry_rejected_zero_samples_witness :
    ∃ err, processEntry exSource exEntryMissingLabel = some ([], some err) ∧
      scrapeMetricsEntries exSource [exEntryMissingLabel] = some ([], some err) :=
  C4_entry_rejected_zero_samples exSource exEntryMissingLabel []
    (by decide) (by decide) (Or.inr ⟨("cn", "user"), by decide, by decide⟩)

/-- C5: each collection cycle bumps the total-scrapes counter by exactly
one, sets the last-scrape-error gauge to this cycle's failure count
(overwriting the prior value) and adds that count to the total-errors
counter; a failing source's search does not abort the cycle: in the
two-source scenario the failing source contributes zero samples while the
succeeding source's samples are all emitted, followed by the four
self-metrics. -/
theorem C5_scrape_cycle_accounting :
    (∀ (st : ExporterState) (elapsed : ℚ)
      (search : SearchRequest → Except String (List Entry))
      (sources : List MetricsSource) (st2 : ExporterState) (ms : List Metric),
      Exporter.scrape st elapsed search sources = some (st2, ms) →
      ∃ failures : Nat, scrapeLoop search sources = some (ms, failures) ∧
        st2.totalScrapes = st.totalScrapes + 1 ∧
        st2.scrapeError = (failures : ℚ) ∧
        st2.totalErrors = st.totalErrors + (failures : ℚ) ∧
        st2.duration = elapsed) ∧
    (∃ (st2 : ExporterState) (out : List Emitted),
      Exporter.Collect ⟨0, 0, 0, 0⟩ 0 exSearch [exFailingSource, exSource] =
        some (st2, out) ∧
      st2.scrapeError = 1 ∧ st2.totalErrors = 1 ∧ st2.totalScrapes = 1 ∧
      (∃ sample : Metric,
        scrapeMetricsEntries exSource [exEntry] = some ([sample], none) ∧
        sample.value = 4 ∧ sample.labelValues = ["alice"] ∧
        out = [.sample sample, .selfDuration st2.duration,
          .selfTotalScrapes st2.totalScrapes, .selfTotalErrors st2.totalErrors,
          .selfScrapeError st2.scrapeError])) := by
  constructor
  · intro st elapsed search sources st2 ms hs
    unfold Exporter.scrape at hs
    cases hloop : scrapeLoop search sources with
    | none =>
      rw [hloop] at hs
      simp at hs
    | some p =>
      obtain ⟨ms0, failures⟩ := p
      rw [hloop] at hs
      simp only [Option.map_some', Option.some.injEq, Prod.mk.injEq] at hs
      obtain ⟨hst, hms⟩ := hs
      subst hms
      subst hst
      exact ⟨failures, rfl, rfl, rfl, rfl, rfl⟩
  · refine ⟨_, _, rfl, ?_, ?_, ?_, ⟨_, rfl, ?_, rfl, rfl⟩⟩
    · show ((1 : ℕ) : ℚ) = 1
      norm_num
    · show (0 : ℚ) + ((1 : ℕ) : ℚ) = 1
      norm_num
    · show (0 : ℚ) + 1 = 1
      norm_num
    · show (((4 : ℕ)) : ℚ) = 4
      norm_num

/-- Witness for C5: the accounting facts instantiated at the two-source
scenario. -/
theorem C5_scrape_cycle_accounting_witness :
    ∃ (st2 : ExporterState) (ms : List Metric) (failures : Nat),
      Exporter.scrape ⟨0, 0, 0, 0⟩ 0 exSearch [exFailingSource, exSource] =
        some (st2, ms) ∧
      scrapeLoop exSearch [exFailingSource, exSource] = some (ms, failures) ∧
      st2.totalScrapes = 0 + 1 ∧ st2.scrapeError = (failures : ℚ) ∧
      st2.totalErrors = 0 + (failures : ℚ) := by
  obtain ⟨st2, ms, hs⟩ :
      ∃ st2 ms, Exporter.scrape ⟨0, 0, 0, 0⟩ 0 exSearch [exFailingSource, exSource] =
        some (st2, ms) := ⟨_, _, rfl⟩
  obtain ⟨f, h1, h2, h3, h4, h5⟩ :=
    C5_scrape_cycle_accounting.1 ⟨0, 0, 0, 0⟩ 0 exSearch [exFailingSource, exSource]
      st2 ms hs
  exact ⟨st2, ms, f, hs, h1, h2, h3, h4⟩

/-- C6: evaluation of the label-name validator at the failing input.  The
claim (and the validator's own error text) requires the empty label name to
be rejected, but the implemented check `len(TrimSpace(label)) != len(label)`
holds trivially for `""`, so the empty label name is accepted; a label with
surrounding whitespace is rejected as claimed. -/
theorem C6_empty_label_name_accepted :
    validateMetricAttributeLabels [""] = .ok () ∧
    (∃ e, validateMetricAttributeLabels [" user"] = .error e) ∧
    (∃ e, validateMetricAttributeLabels ["user "] = .error e) := by
  exact ⟨rfl,
    ⟨"label cannot have whitespace and must be nonempty: " ++ " user", rfl⟩,
    ⟨"label cannot have whitespace and must be nonempty: " ++ "user ", rfl⟩⟩

/-- The accumulator walk succeeds on a duplicate-free label set and returns
the accumulated names in order. -/
lemma buildLabelsFromAttributesAux_ok (pairs : List (String × String))
    (acc : List String) (h : (acc ++ pairs.map Prod.snd).Nodup) :
    buildLabelsFromAttributesAux pairs acc = .ok (acc ++ pairs.map Prod.snd) := by
  induction pairs generalizing acc with
  | nil => simp [buildLabelsFromAttributesAux]
  | cons p rest ih =>
    obtain ⟨src, fn⟩ := p
    have hmem : fn ∉ acc := by
      intro hfn
      rw [List.nodup_append] at h
      exact h.2.2 hfn (by simp)
    have hstep := ih (acc ++ [fn]) (by simpa using h)
    simp only [buildLabelsFromAttributesAux, hmem, if_false]
    rw [hstep]
    simp

/-- The accumulator walk fails when the combined name list has a duplicate
(for a duplicate-free accumulator). -/
lemma buildLabelsFromAttributesAux_error (pairs : List (String × String))
    (acc : List String) (hacc : acc.Nodup)
    (h : ¬ (acc ++ pairs.map Prod.snd).Nodup) :
    ∃ e, buildLabelsFromAttributesAux pairs acc = .error e := by
  induction pairs generalizing acc with
  | nil => exact absurd (by simpa using hacc) h
  | cons p rest ih =>
    obtain ⟨src, fn⟩ := p
    by_cases hmem : fn ∈ acc
    · simp only [buildLabelsFromAttributesAux, hmem, if_true]
      exact ⟨_, rfl⟩
    · simp only [buildLabelsFromAttributesAux, hmem, if_false]
      apply ih (acc ++ [fn])
      · simp [List.nodup_append, hacc]
        intro hfn
        exact hmem hfn
      · intro h2
        apply h
        simpa using h2

/-- C7: two source attributes configured to produce the same output label
name make the load fail (and without duplicates the merge succeeds, so the
failure is exactly the no-silent-merge rule). -/
theorem C7_duplicate_output_label_rejected :
    (∀ pairs : List (String × String), ¬ (pairs.map Prod.snd).Nodup →
      ∃ e, buildLabelsFromAttributes pairs = .error e) ∧
    (∀ pairs : List (String × String), (pairs.map Prod.snd).Nodup →
      buildLabelsFromAttributes pairs = .ok (pairs.map Prod.snd)) := by
  constructor
  · intro pairs h
    exact buildLabelsFromAttributesAux_error pairs [] List.nodup_nil (by simpa using h)
  · intro pairs h
    have hout := buildLabelsFromAttributesAux_ok pairs [] (by simpa using h)
    simpa using hout

/-- Witness for C7: `uid` and `cn` both mapped to the output label `user`
fail the load. -/
theorem C7_duplicate_output_label_rejected_witness :
    (∃ e, buildLabelsFromAttributes exDupLabels = .error e) ∧
    buildLabelsFromAttributes [("cn", "user")] = .ok ["user"] := by
  constructor
  · exact C7_duplicate_output_label_rejected.1 exDupLabels (by decide)
  · exact C7_duplicate_output_label_rejected.2 [("cn", "user")] (by decide)

/-- The metric-attribute construction keeps the configured attribute names,
in enumeration order. -/
lemma buildMetricAttributes_keys (sn : String) (ct gt : List TmplPiece)
    (cl : List (String × String)) (lfa : List String)
    (ms : List (String × metricAttributeConfig)) (out : List (String × MetricAttr))
    (h : buildMetricAttributes sn ct gt cl lfa ms = .ok out) :
    out.map Prod.fst = ms.map Prod.fst := by
  induction ms generalizing out with
  | nil =>
    cases h
    rfl
  | cons p rest ih =>
    obtain ⟨attrName, mc⟩ := p
    simp only [buildMetricAttributes] at h
    split at h
    next e hc => simp at h
    next ma hc =>
      split at h
      next e hr => simp at h
      next tl hr =>
        cases h
        simp [ih tl hr]

/-- Shape of a successfully loaded source: every component is determined by
the configuration contents and the enumeration orders of its two maps. -/
lemma processSource_ok_shape (cfg : metricSourceConfigModel) (s : MetricsSource)
    (h : processSource cfg = .ok s) :
    s.SearchRequest.BaseDN = cfg.Search ∧
    s.SearchRequest.Filter = cfg.Filter.getD "(objectClass=*)" ∧
    s.SearchRequest.Scope = cfg.Scope.getD 0 ∧
    s.SearchRequest.DerefAliases = cfg.Deref.getD 3 ∧
    s.SearchRequest.Attributes =
      cfg.AttrMetrics.map Prod.fst ++ cfg.AttrLabels.map Prod.fst ∧
    s.LabelAttributes = cfg.AttrLabels := by
  unfold processSource at h
  split at h
  next e hv => simp at h
  next hv =>
    split at h
    next e hl => simp at h
    next lfa hl =>
      split at h
      next e hm => simp at h
      next mas hm =>
        cases h
        have hkeys := buildMetricAttributes_keys cfg.Name
          (cfg.CounterNameTemplate.getD defaultCounterNameTemplate)
          (cfg.GaugeNameTemplate.getD defaultmetricNameTemplate)
          cfg.ConstantLabels lfa cfg.AttrMetrics mas hm
        unfold NewMetricsSource
        refine ⟨rfl, rfl, rfl, rfl, ?_, rfl⟩
        simp [hkeys]

/-- C8 counterexample: the same source-section contents loaded under the
two enumeration orders of its metric-attribute map yield search requests
with different requested attribute lists, so two loads of the same document
need not agree on that component. -/
theorem C8_load_determinism_counterexample :
    exCfgA.Name = exCfgB.Name ∧ exCfgA.Search = exCfgB.Search ∧
    exCfgA.Filter = exCfgB.Filter ∧ exCfgA.Scope = exCfgB.Scope ∧
    exCfgA.Deref = exCfgB.Deref ∧
    exCfgA.ConstantLabels = exCfgB.ConstantLabels ∧
    exCfgA.AttrLabels = exCfgB.AttrLabels ∧
    exCfgA.AttrMetrics.Perm exCfgB.AttrMetrics ∧
    (∃ s1 s2, processSource exCfgA = .ok s1 ∧ processSource exCfgB = .ok s2 ∧
      s1.SearchRequest.Attributes = ["a", "b"] ∧
      s2.SearchRequest.Attributes = ["b", "a"] ∧
      s1.SearchRequest.Attributes ≠ s2.SearchRequest.Attributes) := by
  refine ⟨rfl, rfl, rfl, rfl, rfl, rfl, rfl, by decide, ?_⟩
  exact ⟨_, _, rfl, rfl, rfl, rfl, by decide⟩

/-- C8 (amended): two loads of the same document contents agree on the
search request's base DN, filter, scope and deref, agree on the label
mapping and the requested attribute list up to the enumeration order of the
configuration maps, and agree exactly when the maps are enumerated in the
same order both times. -/
theorem C8_load_determinism_amended :
    ∀ (c1 c2 : metricSourceConfigModel) (s1 s2 : MetricsSource),
      c1.Search = c2.Search → c1.Filter = c2.Filter → c1.Scope = c2.Scope →
      c1.Deref = c2.Deref →
      c1.AttrLabels.Perm c2.AttrLabels → c1.AttrMetrics.Perm c2.AttrMetrics →
      processSource c1 = .ok s1 → processSource c2 = .ok s2 →
      s1.SearchRequest.BaseDN = s2.SearchRequest.BaseDN ∧
      s1.SearchRequest.Filter = s2.SearchRequest.Filter ∧
      s1.SearchRequest.Scope = s2.SearchRequest.Scope ∧
      s1.SearchRequest.DerefAliases = s2.SearchRequest.DerefAliases ∧
      s1.SearchRequest.Attributes.Perm s2.SearchRequest.Attributes ∧
      s1.LabelAttributes.Perm s2.LabelAttributes ∧
      (c1 = c2 → s1 = s2) := by
  intro c1 c2 s1 s2 hsearch hfilter hscope hderef hlab hmet h1 h2
  obtain ⟨b1, f1, sc1, d1, a1, l1⟩ := processSource_ok_shape c1 s1 h1
  obtain ⟨b2, f2, sc2, d2, a2, l2⟩ := processSource_ok_shape c2 s2 h2
  refine ⟨?_, ?_, ?_, ?_, ?_, ?_, ?_⟩
  · rw [b1, b2, hsearch]
  · rw [f1, f2, hfilter]
  · rw [sc1, sc2, hscope]
  · rw [d1, d2, hderef]
  · rw [a1, a2]
    exact (hmet.map Prod.fst).append (hlab.map Prod.fst)
  · rw [l1, l2]
    exact hlab
  · intro he
    rw [he] at h1
    exact Except.ok.inj (h1.symm.trans h2)

/-- Witness for C8 (amended): the two enumeration orders of the example
section agree on the scalar search fields and on the attribute list up to
permutation. -/
theorem C8_load_determinism_amended_witness :
    ∃ s1 s2, processSource exCfgA = .ok s1 ∧ processSource exCfgB = .ok s2 ∧
      s1.SearchRequest.BaseDN = s2.SearchRequest.BaseDN ∧
      s1.SearchRequest.Attributes.Perm s2.SearchRequest.Attributes := by
  obtain ⟨s1, h1⟩ : ∃ s1, processSource exCfgA = .ok s1 := ⟨_, rfl⟩
  obtain ⟨s2, h2⟩ : ∃ s2, processSource exCfgB = .ok s2 := ⟨_, rfl⟩
  have h := C8_load_determinism_amended exCfgA exCfgB s1 s2 rfl rfl rfl rfl
    (by decide) (by decide) h1 h2
  exact ⟨s1, s2, h1, h2, h.1, h.2.2.2.2.1⟩

end LdapExporter
